import Mathlib

/-!
Verification development for the QR-code scan/generate repository
(Remix + PostgreSQL).  The definitions below are shallow embeddings of
the server routes (`app/routes/scan.tsx`, `app/routes/events.tsx`), the
store adapter (`scanned_data` table with a SERIAL id, as created in
`app/utils/db.server.ts` and queried by the routes), the SSE client hook
(`app/hooks/useSSE.ts`), the camera scan component
(`app/components/QrScanner.tsx`) and the WebSocket hub
(`app/utils/websocket.server.ts`).  Timestamps are modelled as `Int`
milliseconds (JavaScript `Date.now()`); JavaScript `Math.floor(x / 1000)`
on an integer difference is `Int.fdiv x 1000`.
-/

/-! ## JavaScript `parseInt(s, 10)` -/

/-- Value of a list of decimal digit characters. -/
def digitsVal (ds : List Char) : Nat :=
  ds.foldl (fun acc c => acc * 10 + (c.toNat - 48)) 0

/-- JavaScript `parseInt(s, 10)`: skip leading whitespace, read an
optional sign and then the longest prefix of decimal digits; the result
is `none` (JS `NaN`) when no digit is found. -/
def jsParseInt (s : String) : Option Int :=
  let cs := s.data.dropWhile Char.isWhitespace
  let signAndRest : Int × List Char :=
    match cs with
    | '-' :: rest => (-1, rest)
    | '+' :: rest => (1, rest)
    | _ => (1, cs)
  let ds := signAndRest.2.takeWhile Char.isDigit
  if ds.isEmpty then none
  else some (signAndRest.1 * (digitsVal ds : Int))

/-- JavaScript `String.prototype.trim()`: strip whitespace from both
ends. -/
def jsTrim (s : String) : String :=
  ⟨((s.data.dropWhile Char.isWhitespace).reverse.dropWhile Char.isWhitespace).reverse⟩

/-! ## Append-only store (`scanned_data` table)

`db.server.ts` creates `scanned_data (id SERIAL PRIMARY KEY, data TEXT
NOT NULL, scanned_at TIMESTAMP ...)`.  A SERIAL id is drawn from a
strictly increasing sequence, modelled by the `nextId` counter
(starting at 1); rows are only ever appended. -/

/-- One row of `scanned_data`. -/
structure ScanRecord where
  id : Nat
  data : String
  scanned_at : Int
deriving DecidableEq, Repr

/-- The `scanned_data` table plus the state of its SERIAL id sequence. -/
structure Store where
  nextId : Nat
  rows : List ScanRecord
deriving DecidableEq, Repr

/-- Empty table, sequence at its start value. -/
def Store.empty : Store := ⟨1, []⟩

/-- `INSERT INTO scanned_data(data) VALUES($1) RETURNING id, data,
scanned_at` — the id comes from the sequence, `scanned_at` from the
store clock. -/
def Store.insert (st : Store) (d : String) (dbNow : Int) : ScanRecord × Store :=
  let r : ScanRecord := ⟨st.nextId, d, dbNow⟩
  (r, ⟨st.nextId + 1, st.rows ++ [r]⟩)

/-- `ORDER BY id DESC LIMIT 1`: the row with the greatest id, if any. -/
def maxIdRow : List ScanRecord → Option ScanRecord
  | [] => none
  | r :: rest =>
    match maxIdRow rest with
    | none => some r
    | some m => if m.id < r.id then some r else some m

/-- `SELECT id, data, scanned_at FROM scanned_data ORDER BY id DESC
LIMIT 1` (the `latest` query of `generate.tsx` and `events.tsx`). -/
def Store.latest (st : Store) : Option ScanRecord :=
  maxIdRow st.rows

/-- `SELECT id, data, scanned_at FROM scanned_data WHERE id > $1 ORDER
BY id DESC LIMIT 1` (the catch-up query of `events.tsx`). -/
def Store.since (st : Store) (i : Nat) : Option ScanRecord :=
  maxIdRow (st.rows.filter (fun r => i < r.id))

/-- Row ids appear in strictly increasing order. -/
def idsIncreasing : List ScanRecord → Bool
  | [] => true
  | [_] => true
  | a :: b :: rest => decide (a.id < b.id) && idsIncreasing (b :: rest)

/-- Store well-formedness: ids strictly increase along the table and are
all below the sequence's next value. -/
def Store.wf (st : Store) : Bool :=
  idsIncreasing st.rows && st.rows.all (fun r => r.id < st.nextId)

/-- A whole sequence of inserts (payload and store-clock time each). -/
def insertAll (st : Store) (ps : List (String × Int)) : Store :=
  ps.foldl (fun s p => (s.insert p.1 p.2).2) st

/-! ## The `/scan` action (`app/routes/scan.tsx`) -/

/-- `Math.floor((currentTimestamp - scanTimestamp) / 1000)` — the age of
the scan in whole seconds, rounded toward negative infinity. -/
def timeDifferenceSec (scanTimestamp now : Int) : Int :=
  Int.fdiv (now - scanTimestamp) 1000

/-- The action's staleness check: `timeDifference > 5`. -/
def isStale (scanTimestamp now : Int) : Bool :=
  timeDifferenceSec scanTimestamp now > 5

/-- Discriminated outcome of the `/scan` action.  `invalidData` and
`invalidTimestamp` are the two 400 guards, `stale` the 400 staleness
rejection carrying `timeDifference`, `saved` the 200 success carrying
the inserted row and the reported `timeDifference` (`none` models the
JS `NaN`, which serializes to `null`). -/
inductive ActionResult where
  | invalidData
  | invalidTimestamp
  | stale (timeDifference : Int)
  | saved (rec : ScanRecord) (timeDifference : Option Int)
deriving DecidableEq, Repr

/-- The `/scan` action.  `scannedData` and `scanTimestampValue` are the
form fields (`none` for a missing / non-string value), `now` is
`Date.now()` on the server; the returned store is the table after the
request (the database is untouched on every failure path). -/
def scanAction (scannedData scanTimestampValue : Option String) (now : Int)
    (st : Store) : ActionResult × Store :=
  match scannedData with
  | none => (.invalidData, st)
  | some d =>
    if jsTrim d = "" then (.invalidData, st)
    else
      match scanTimestampValue with
      | none => (.invalidTimestamp, st)
      | some ts =>
        if ts = "" then (.invalidTimestamp, st)
        else
          match jsParseInt ts with
          | some t =>
            if isStale t now then
              (.stale (timeDifferenceSec t now), st)
            else
              let ins := st.insert d now
              (.saved ins.1 (some (timeDifferenceSec t now)), ins.2)
          | none =>
            -- parseInt produced NaN: `NaN > 5` is false, so the
            -- staleness guard is bypassed and the insert runs.
            let ins := st.insert d now
            (.saved ins.1 none, ins.2)

/-! ## Push-stream transport (`app/routes/events.tsx` loader)

The loader reads `lastId` from the URL once, then polls the store every
2000 ms; each tick runs the `since`/`latest` query with that fixed
parameter and sends a `new_scan` message whenever a row comes back. -/

/-- `setInterval(..., 2000)` period of the polling loop. -/
def ssePollIntervalMs : Nat := 2000

/-- The per-tick query: with a `lastId` parameter the `WHERE id > $1`
variant, otherwise the plain latest-row query. -/
def ssePollQuery (lastId : Option Nat) (st : Store) : Option ScanRecord :=
  match lastId with
  | some i => st.since i
  | none => st.latest

/-- Messages delivered so far on one open stream. -/
structure SSEStreamState where
  sent : List ScanRecord
deriving DecidableEq, Repr

/-- One poll tick: emit the query result (if any) to the subscriber.
`lastId` is the URL parameter captured when the stream opened; the code
never updates it. -/
def sseTick (lastId : Option Nat) (st : Store) (s : SSEStreamState) : SSEStreamState :=
  match ssePollQuery lastId st with
  | some r => ⟨s.sent ++ [r]⟩
  | none => s

/-- Highest record id already sent on this stream (the spec's
`lastDeliveredId`), starting from the caller-supplied last known id. -/
def lastDeliveredId (lastKnown : Nat) (s : SSEStreamState) : Nat :=
  s.sent.foldl (fun m r => max m r.id) lastKnown

/-! ## Sync Receiver (`app/hooks/useSSE.ts`) -/

/-- The hook's `SSEStatus` union. -/
inductive SSEStatus where
  | disconnected
  | connecting
  | connected
  | error
deriving DecidableEq, Repr

/-- State of one `useSSE` instance: the visible status, the
`reconnectAttemptsRef` counter, whether `reconnectTimeoutRef` holds a
pending timer and whether an `EventSource` object exists. -/
structure SSEClientState where
  status : SSEStatus
  reconnectAttempts : Nat
  timerPending : Bool
  esOpen : Bool
deriving DecidableEq, Repr

/-- Default `maxReconnectAttempts`. -/
def maxReconnectAttempts : Nat := 5

/-- `connect()`: close any existing `EventSource`, clear any pending
reconnect timer, set status `connecting` and open a new source.  The
attempt counter is left untouched. -/
def connectStep (s : SSEClientState) : SSEClientState :=
  { s with esOpen := true, timerPending := false, status := .connecting }

/-- Events driving the hook: transport callbacks, the reconnect timer
firing, and the two exposed actions. -/
inductive SSEEvent where
  | onOpen
  | onError
  | timerFire
  | manualReconnect
  | disconnectCall
deriving DecidableEq, Repr

/-- One step of the hook's behaviour, transcribed from the handlers in
`useSSE.ts`: `onopen` resets the counter, `onerror` schedules a retry
only while the counter is below the cap, the timer re-runs `connect()`,
`reconnect()` zeroes the counter before connecting, and `disconnect()`
tears everything down. -/
def sseStep (s : SSEClientState) (e : SSEEvent) : SSEClientState :=
  match e with
  | .onOpen => { s with status := .connected, reconnectAttempts := 0 }
  | .onError =>
    let s1 := { s with status := SSEStatus.error }
    if s1.reconnectAttempts < maxReconnectAttempts then
      { s1 with reconnectAttempts := s1.reconnectAttempts + 1, timerPending := true }
    else s1
  | .timerFire =>
    if s.timerPending then connectStep { s with timerPending := false } else s
  | .manualReconnect => connectStep { s with reconnectAttempts := 0 }
  | .disconnectCall =>
    { s with esOpen := false, timerPending := false, reconnectAttempts := 0,
             status := .disconnected }

/-- State after the initial `connect()` triggered by the enabling
effect. -/
def sseInit : SSEClientState :=
  connectStep ⟨.disconnected, 0, false, false⟩

/-- Run the hook over a list of events. -/
def sseRunClient (es : List SSEEvent) : SSEClientState :=
  es.foldl sseStep sseInit

/-- 1 when this event schedules an automatic reconnect timer
(an `onerror` with the counter still below the cap), else 0. -/
def schedulesOnError (s : SSEClientState) (e : SSEEvent) : Nat :=
  match e with
  | .onError => if s.reconnectAttempts < maxReconnectAttempts then 1 else 0
  | _ => 0

/-- Number of automatic reconnect timers scheduled along a trace. -/
def countScheduled (s : SSEClientState) : List SSEEvent → Nat
  | [] => 0
  | e :: rest => schedulesOnError s e + countScheduled (sseStep s e) rest

/-- A trace of transport failures and timer firings only: no successful
open, no manual reconnect, no disconnect. -/
def autoOnly (es : List SSEEvent) : Bool :=
  es.all (fun e => e = SSEEvent.onError || e = SSEEvent.timerFire)

/-- Six consecutive transport failures: the initial connection errors,
every scheduled retry fires and errors again. -/
def sixFailTrace : List SSEEvent :=
  [.onError, .timerFire, .onError, .timerFire, .onError, .timerFire,
   .onError, .timerFire, .onError, .timerFire, .onError]

/-! ## Decode loop per-frame cycle (`QrScanner.tsx`, `tick`) -/

/-- Inputs a single `tick` call observes: the cancellation flag
`isLoopActiveRef`, whether the video/canvas/stream refs are all set,
whether the video frame is ready to sample, and what `jsQR` returned on
the sampled frame (`none` when no code was found, when the frame was
blank, or when decoding threw). -/
structure TickInput where
  loopActive : Bool
  refsPresent : Bool
  videoReady : Bool
  decodeResult : Option String
deriving DecidableEq, Repr

/-- What one `tick` call did: how many further animation frames it
requested, whether it called `stopScan`, and the scanned data it
published. -/
structure TickOutcome where
  framesRequested : Nat
  stopCalled : Bool
  scannedDataSet : Option String
deriving DecidableEq, Repr

/-- One iteration of the decode loop, transcribed from `tick`: bail out
when the loop flag is down or a ref is missing; on a decode whose data
is non-empty after `trim`, publish it and call `stopScan` without
requesting another frame; otherwise request exactly one next frame. -/
def tick (inp : TickInput) : TickOutcome :=
  if !inp.loopActive then ⟨0, false, none⟩
  else if !inp.refsPresent then ⟨0, false, none⟩
  else
    match (if inp.videoReady then inp.decodeResult else none) with
    | some d =>
      if jsTrim d ≠ "" then ⟨0, true, some d⟩
      else ⟨1, false, none⟩
    | none => ⟨1, false, none⟩

/-! ## Camera resource lifecycle (`QrScanner.tsx`)

Event-level model of the component's camera handling.  Camera handles
are numbered in acquisition-request order; `acquired`/`released` record
which handles ever turned on and which had their tracks stopped. -/

/-- Lifecycle state: the `isScanning` React state, the
`isLoopActiveRef` flag, the `streamRef` contents, whether an animation
frame is pending, an in-flight `getUserMedia` call, and the acquisition
ledger. -/
structure ScannerState where
  isScanning : Bool
  loopActive : Bool
  stream : Option Nat
  animPending : Bool
  pendingAcquire : Option Nat
  nextCam : Nat
  acquired : List Nat
  released : List Nat
deriving DecidableEq, Repr

/-- Freshly mounted component. -/
def scannerInit : ScannerState := ⟨false, false, none, false, none, 0, [], []⟩

/-- Stop the tracks of the stream held in `streamRef`, if any. -/
def releaseStream (s : ScannerState) : ScannerState :=
  match s.stream with
  | some c => { s with stream := none, released := s.released ++ [c] }
  | none => s

/-- `stopScan`: lower the loop flag, cancel the pending animation
frame, stop the stream's tracks and leave scanning mode. -/
def stopScanStep (s : ScannerState) : ScannerState :=
  releaseStream { s with loopActive := false, animPending := false, isScanning := false }

/-- Externally visible events: the start button, the `isScanning`
effect body running, the effect cleanup running, the `getUserMedia`
promise resolving (followed by `handlePlay`), and the stop button. -/
inductive ScannerEvent where
  | startClick
  | effectRun
  | cleanupRun
  | acquireResolve
  | stopClick
deriving DecidableEq, Repr

/-- One step of the component, transcribed from `QrScanner.tsx`:
`startScan` raises `isScanning`; the effect body calls `getUserMedia`
once per run when scanning (and only tears down otherwise); the cleanup
stops stream and animation frame; when the acquisition resolves the
code stores the stream in `streamRef` (overwriting, without stopping,
whatever was there) and `handlePlay` raises the loop flag and requests
a frame — with no check that scanning is still wanted; `stopScan` is
the stop handler. -/
def scannerStep (s : ScannerState) (e : ScannerEvent) : ScannerState :=
  match e with
  | .startClick => { s with isScanning := true }
  | .effectRun =>
    if s.isScanning then
      { s with loopActive := false, pendingAcquire := some s.nextCam,
               nextCam := s.nextCam + 1 }
    else
      releaseStream { s with loopActive := false, animPending := false }
  | .cleanupRun => releaseStream { s with loopActive := false, animPending := false }
  | .acquireResolve =>
    match s.pendingAcquire with
    | some c =>
      { s with pendingAcquire := none, acquired := s.acquired ++ [c],
               stream := some c, loopActive := true, animPending := true }
    | none => s
  | .stopClick => stopScanStep s

/-- Run the component over a list of events. -/
def runScanner (es : List ScannerEvent) : ScannerState :=
  es.foldl scannerStep scannerInit

/-- start; stop while `getUserMedia` is still in flight; the
acquisition then resolves; start again and let its acquisition
resolve. -/
def leakTrace : List ScannerEvent :=
  [.startClick, .effectRun, .stopClick, .cleanupRun, .acquireResolve,
   .startClick, .effectRun, .acquireResolve]

/-! ## Broadcast hub wire messages

Persistent channel: `app/utils/websocket.server.ts`.  Push stream: the
`send(...)` calls in the `app/routes/events.tsx` loader. -/

/-- The `QRCodeMessage.type` union of `websocket.server.ts`. -/
inductive WSMsgType where
  | NEW_SCAN
  | GENERATE_UUID
  | HEARTBEAT
deriving DecidableEq, Repr

/-- The type tag as it appears on the wire. -/
def wsTypeString : WSMsgType → String
  | .NEW_SCAN => "NEW_SCAN"
  | .GENERATE_UUID => "GENERATE_UUID"
  | .HEARTBEAT => "HEARTBEAT"

/-- `QRCodeMessage`: every WebSocket message carries `type`, an optional
`data`, a `timestamp` and a random `id`. -/
structure QRCodeMessage where
  type : WSMsgType
  data : Option String
  timestamp : Int
  id : String
deriving DecidableEq, Repr

/-- `notifyNewScan(data)`: broadcast `{type: NEW_SCAN, data, timestamp:
Date.now(), id: randomUUID()}`. -/
def notifyNewScan (d : String) (now : Int) (uuid : String) : QRCodeMessage :=
  ⟨.NEW_SCAN, some d, now, uuid⟩

/-- The heartbeat broadcast every 30 s. -/
def wsHeartbeat (now : Int) (uuid : String) : QRCodeMessage :=
  ⟨.HEARTBEAT, none, now, uuid⟩

/-- `notifyGenerateUUID()` broadcast. -/
def notifyGenerateUUID (now : Int) (uuid : String) : QRCodeMessage :=
  ⟨.GENERATE_UUID, none, now, uuid⟩

/-- The four message shapes the `events.tsx` loader ever passes to
`send`, with exactly the fields the source constructs. -/
inductive SSEServerMsg where
  | connectedMsg (message : String)
  | newScanMsg (id : Nat) (content : String) (scannedAt : Int) (timestamp : Int)
  | errorMsg (message : String)
  | heartbeatMsg (timestamp : Int)
deriving DecidableEq, Repr

/-- The `type` field of an SSE message. -/
def sseTypeString : SSEServerMsg → String
  | .connectedMsg _ => "connected"
  | .newScanMsg _ _ _ _ => "new_scan"
  | .errorMsg _ => "error"
  | .heartbeatMsg _ => "heartbeat"

/-- Whether the JSON object has a top-level `timestamp` field. -/
def sseHasTopTimestamp : SSEServerMsg → Bool
  | .heartbeatMsg _ => true
  | _ => false

/-- The envelope type set the specification prescribes for both
transports. -/
def specEnvelopeTypes : List String :=
  ["connected", "new-scan", "heartbeat", "error"]

/-! ### Arithmetic facts about the staleness check -/

/-- `Math.floor(d / 1000) ≤ 5` holds exactly for differences up to
5999 ms. -/
theorem fdiv1000_le_five (d : Int) : Int.fdiv d 1000 ≤ 5 ↔ d ≤ 5999 := by
  rw [Int.fdiv_eq_ediv d (by omega : (0:Int) ≤ 1000)]
  omega

/-- The floored age of a future timestamp is negative. -/
theorem fdiv1000_neg {d : Int} (h : d < 0) : Int.fdiv d 1000 < 0 :=
  Int.fdiv_neg' h (by omega)

/-- The staleness check accepts exactly the differences up to 5999 ms. -/
theorem isStale_false_iff (scanTimestamp now : Int) :
    isStale scanTimestamp now = false ↔ now - scanTimestamp ≤ 5999 := by
  unfold isStale timeDifferenceSec
  rw [decide_eq_false_iff_not, not_lt]
  exact fdiv1000_le_five (now - scanTimestamp)

/-! ## Claims about the `/scan` freshness validation -/

/-- Claim C1, counterexample: at `now - capturedAt = 5500` ms the
staleness check accepts although the age exceeds the 5-second
threshold, so "accepts iff `now - capturedAt ≤ threshold`" is false. -/
theorem scanActionC1_counterexample :
    isStale 0 5500 = false ∧ ¬ ((5500 : Int) - 0 ≤ 5 * 1000) := by
  decide

/-- Claim C1, amended: the `/scan` staleness check accepts exactly when
`now - capturedAt ≤ 5999` ms, i.e. when the floored age in seconds is
at most 5; in particular it still accepts at the exact 5000 ms
boundary. -/
theorem scanActionC1_amended :
    ∀ scanTimestamp now : Int,
      (isStale scanTimestamp now = false ↔ now - scanTimestamp ≤ 5999) ∧
      isStale scanTimestamp (scanTimestamp + 5000) = false := by
  intro scanTimestamp now
  refine ⟨isStale_false_iff scanTimestamp now, ?_⟩
  rw [isStale_false_iff]
  omega

/-- Claim C2: when the parsed scan timestamp makes the age exceed the
threshold, the action returns the stale failure carrying the computed
age and the store is unchanged (no insert runs). -/
theorem scanActionC2_stale_no_insert (d ts : String) (now t : Int) (st : Store)
    (hd : jsTrim d ≠ "") (hts : ts ≠ "") (hp : jsParseInt ts = some t)
    (hstale : isStale t now = true) :
    scanAction (some d) (some ts) now st =
      (ActionResult.stale (timeDifferenceSec t now), st) := by
  simp [scanAction, hd, hts, hp, hstale]

/-- Claim C2 witness: the spec's Scenario B — capture at time 0,
validation at 9000 ms, threshold 5 s — is rejected with age 9 and the
store stays empty. -/
theorem scanActionC2_witness :
    (jsTrim "42" ≠ "" ∧ ("0" : String) ≠ "" ∧ jsParseInt "0" = some 0 ∧
      isStale 0 9000 = true) ∧
    scanAction (some "42") (some "0") 9000 Store.empty =
      (ActionResult.stale (timeDifferenceSec 0 9000), Store.empty) :=
  ⟨⟨by decide, by decide, by decide, by decide⟩,
    scanActionC2_stale_no_insert "42" "0" 9000 0 Store.empty
      (by decide) (by decide) (by decide) (by decide)⟩

/-- Claim C8, counterexample: a capture timestamp 2000 ms in the future
is accepted, but the computed (and reported) age is -2, not the
claimed zero. -/
theorem scanActionC8_counterexample :
    isStale 2000 0 = false ∧ timeDifferenceSec 2000 0 = -2 ∧
      timeDifferenceSec 2000 0 ≠ 0 := by
  decide

/-- Claim C8, amended: a capture timestamp in the future never trips
the staleness check (the validation is total, so nothing throws), but
the computed age is the negative floored difference — it is strictly
below zero rather than clamped to zero. -/
theorem scanActionC8_amended (scanTimestamp now : Int) (h : now < scanTimestamp) :
    isStale scanTimestamp now = false ∧ timeDifferenceSec scanTimestamp now < 0 := by
  have hneg : timeDifferenceSec scanTimestamp now < 0 := fdiv1000_neg (by omega)
  refine ⟨?_, hneg⟩
  unfold isStale
  simp only [decide_eq_false_iff_not, not_lt]
  omega

/-- Claim C8 witness: capture 500 ms in the future of time 0. -/
theorem scanActionC8_witness :
    (0 : Int) < 500 ∧
      (isStale 500 0 = false ∧ timeDifferenceSec 500 0 < 0) :=
  ⟨by decide, scanActionC8_amended 500 0 (by decide)⟩

/-- Claim C10: a non-empty scan timestamp that `parseInt` cannot parse
yields NaN, the comparison `NaN > 5` is false, and the action inserts
the payload and reports success — the freshness check is bypassed. -/
theorem scanActionC10_nan_bypass (d ts : String) (now : Int) (st : Store)
    (hd : jsTrim d ≠ "") (hts : ts ≠ "") (hp : jsParseInt ts = none) :
    scanAction (some d) (some ts) now st =
      (ActionResult.saved (st.insert d now).1 none, (st.insert d now).2) := by
  simp [scanAction, hd, hts, hp]

/-- Claim C10 witness: form fields `scannedData = "hello"`,
`scanTimestamp = "abc"` at time 0 on the empty store: the row is
inserted and the action succeeds. -/
theorem scanActionC10_witness :
    (jsTrim "hello" ≠ "" ∧ ("abc" : String) ≠ "" ∧ jsParseInt "abc" = none) ∧
    scanAction (some "hello") (some "abc") 0 Store.empty =
      (ActionResult.saved ⟨1, "hello", 0⟩ none, ⟨2, [⟨1, "hello", 0⟩]⟩) := by
  refine ⟨⟨by decide, by decide, by decide⟩, ?_⟩
  have h := scanActionC10_nan_bypass "hello" "abc" 0 Store.empty
    (by decide) (by decide) (by decide)
  simpa [Store.insert, Store.empty] using h

/-! ### Store lemmas -/

/-- The max-id query returns nothing exactly on the empty table. -/
theorem maxIdRow_eq_none (l : List ScanRecord) : maxIdRow l = none ↔ l = [] := by
  cases l with
  | nil => simp [maxIdRow]
  | cons r rest =>
    simp only [maxIdRow]
    cases maxIdRow rest with
    | none => simp
    | some m => by_cases h : m.id < r.id <;> simp [h]

/-- The max-id query returns a row of the table. -/
theorem maxIdRow_mem {l : List ScanRecord} {r : ScanRecord}
    (h : maxIdRow l = some r) : r ∈ l := by
  induction l with
  | nil => simp [maxIdRow] at h
  | cons a rest ih =>
    simp only [maxIdRow] at h
    cases hm : maxIdRow rest with
    | none =>
      rw [hm] at h
      simp only [Option.some.injEq] at h
      simp [← h]
    | some m =>
      rw [hm] at h
      by_cases hc : m.id < a.id
      · simp only [hc, if_pos, Option.some.injEq] at h
        simp [← h]
      · simp only [hc, if_neg, if_false, Option.some.injEq] at h
        rw [h] at hm
        exact List.mem_cons_of_mem a (ih hm)

/-- The max-id query's row has the greatest id in the table. -/
theorem maxIdRow_ge {l : List ScanRecord} :
    ∀ {r : ScanRecord}, maxIdRow l = some r → ∀ x ∈ l, x.id ≤ r.id := by
  induction l with
  | nil => intro r h; simp [maxIdRow] at h
  | cons a rest ih =>
    intro r h x hx
    simp only [maxIdRow] at h
    cases hm : maxIdRow rest with
    | none =>
      rw [hm] at h
      simp only [Option.some.injEq] at h
      have hrest : rest = [] := (maxIdRow_eq_none rest).mp hm
      subst hrest
      simp only [List.mem_singleton] at hx
      subst hx
      exact h ▸ Nat.le_refl _
    | some m =>
      rw [hm] at h
      have hxm : ∀ y ∈ rest, y.id ≤ m.id := ih hm
      rcases List.mem_cons.mp hx with hxa | hxr
      · subst hxa
        by_cases hc : m.id < x.id
        · simp only [hc, if_pos, Option.some.injEq] at h
          exact h ▸ Nat.le_refl _
        · simp only [hc, if_neg, if_false, Option.some.injEq] at h
          subst h
          omega
      · have hx2 : x.id ≤ m.id := hxm x hxr
        by_cases hc : m.id < a.id
        · simp only [hc, if_pos, Option.some.injEq] at h
          subst h
          omega
        · simp only [hc, if_neg, if_false, Option.some.injEq] at h
          subst h
          exact hx2

/-- The catch-up query only returns rows beyond the given id. -/
theorem since_some_gt {st : Store} {i : Nat} {r : ScanRecord}
    (h : st.since i = some r) : i < r.id := by
  have hmem := maxIdRow_mem h
  have := List.mem_filter.mp hmem
  exact of_decide_eq_true this.2

/-- The catch-up query's row is in the table and has the greatest id
among rows beyond the given id. -/
theorem since_some_max {st : Store} {i : Nat} {r : ScanRecord}
    (h : st.since i = some r) :
    r ∈ st.rows ∧ ∀ x ∈ st.rows, i < x.id → x.id ≤ r.id := by
  constructor
  · exact (List.mem_filter.mp (maxIdRow_mem h)).1
  · intro x hx hgt
    exact maxIdRow_ge h x (List.mem_filter.mpr ⟨hx, decide_eq_true hgt⟩)

/-- The catch-up query is empty exactly when the table has no row
beyond the given id. -/
theorem since_none_iff (st : Store) (i : Nat) :
    st.since i = none ↔ ∀ x ∈ st.rows, x.id ≤ i := by
  unfold Store.since
  rw [maxIdRow_eq_none, List.filter_eq_nil_iff]
  constructor
  · intro h x hx
    have := h x hx
    simp only [decide_eq_true_eq] at this
    omega
  · intro h x hx
    simp only [decide_eq_true_eq]
    have := h x hx
    omega

/-- Appending a row whose id dominates the table keeps ids strictly
increasing. -/
theorem idsIncreasing_append (rows : List ScanRecord) (r : ScanRecord)
    (h : idsIncreasing rows = true) (hlt : ∀ x ∈ rows, x.id < r.id) :
    idsIncreasing (rows ++ [r]) = true := by
  induction rows with
  | nil => simp [idsIncreasing]
  | cons a tl ih =>
    cases tl with
    | nil =>
      simp only [List.cons_append, List.nil_append, idsIncreasing,
        Bool.and_eq_true, decide_eq_true_eq]
      exact ⟨hlt a (by simp), trivial⟩
    | cons b tl2 =>
      simp only [idsIncreasing, Bool.and_eq_true, decide_eq_true_eq] at h
      simp only [List.cons_append, idsIncreasing, Bool.and_eq_true,
        decide_eq_true_eq]
      refine ⟨h.1, ?_⟩
      have := ih h.2 (fun x hx => hlt x (List.mem_cons_of_mem a hx))
      simpa using this

/-- Inserting preserves store well-formedness. -/
theorem wf_insert (st : Store) (d : String) (t : Int) (h : st.wf = true) :
    (st.insert d t).2.wf = true := by
  unfold Store.wf at h
  simp only [Bool.and_eq_true, List.all_eq_true, decide_eq_true_eq] at h
  obtain ⟨h1, h2⟩ := h
  show (Store.mk (st.nextId + 1) (st.rows ++ [⟨st.nextId, d, t⟩])).wf = true
  unfold Store.wf
  simp only [Bool.and_eq_true, List.all_eq_true, decide_eq_true_eq]
  constructor
  · exact idsIncreasing_append _ _ h1 (fun x hx => h2 x hx)
  · intro x hx
    rcases List.mem_append.mp hx with hx | hx
    · have := h2 x hx
      omega
    · simp only [List.mem_singleton] at hx
      subst hx
      show st.nextId < st.nextId + 1
      omega

/-- Any sequence of inserts starting from the empty table yields a
well-formed store. -/
theorem wf_insertAll (ps : List (String × Int)) :
    ∀ st : Store, st.wf = true → (insertAll st ps).wf = true := by
  induction ps with
  | nil => intro st h; simpa [insertAll] using h
  | cons p tl ih =>
    intro st h
    simp only [insertAll, List.foldl_cons]
    exact ih (st.insert p.1 p.2).2 (wf_insert st p.1 p.2 h)

/-- Claim C3: inserted ids are strictly increasing and never reused (a
new row's id dominates every existing row and the well-formedness
invariant is preserved from the empty store through any insert
sequence), and `since(i)` never returns a row with id at most `i`; it
returns the highest-id row beyond `i`, or none exactly when the store
is caught up. -/
theorem storeC3 :
    (∀ ps : List (String × Int), (insertAll Store.empty ps).wf = true) ∧
    (∀ (st : Store) (d : String) (t : Int), st.wf = true →
      ((st.insert d t).2.wf = true ∧
        ∀ x ∈ st.rows, x.id < (st.insert d t).1.id)) ∧
    (∀ (st : Store) (i : Nat) (r : ScanRecord), st.since i = some r → i < r.id) ∧
    (∀ (st : Store) (i : Nat) (r : ScanRecord), st.since i = some r →
      r ∈ st.rows ∧ ∀ x ∈ st.rows, i < x.id → x.id ≤ r.id) ∧
    (∀ (st : Store) (i : Nat), st.since i = none ↔ ∀ x ∈ st.rows, x.id ≤ i) := by
  refine ⟨?_, ?_, ?_, ?_, ?_⟩
  · intro ps
    exact wf_insertAll ps Store.empty (by decide)
  · intro st d t h
    refine ⟨wf_insert st d t h, ?_⟩
    intro x hx
    unfold Store.wf at h
    simp only [Bool.and_eq_true, List.all_eq_true, decide_eq_true_eq] at h
    exact h.2 x hx
  · intro st i r h
    exact since_some_gt h
  · intro st i r h
    exact since_some_max h
  · intro st i
    exact since_none_iff st i

/-- Claim C3 witness: on the concrete well-formed store with rows 1 and
2, an insert gets id 3 (above both existing ids) and stays
well-formed. -/
theorem storeC3_witness :
    (⟨3, [⟨1, "a", 0⟩, ⟨2, "b", 1⟩]⟩ : Store).wf = true ∧
    (((⟨3, [⟨1, "a", 0⟩, ⟨2, "b", 1⟩]⟩ : Store).insert "c" 2).2.wf = true ∧
      ∀ x ∈ (⟨3, [⟨1, "a", 0⟩, ⟨2, "b", 1⟩]⟩ : Store).rows,
        x.id < ((⟨3, [⟨1, "a", 0⟩, ⟨2, "b", 1⟩]⟩ : Store).insert "c" 2).1.id) :=
  ⟨by decide, storeC3.2.1 ⟨3, [⟨1, "a", 0⟩, ⟨2, "b", 1⟩]⟩ "c" 2 (by decide)⟩

/-! ### Claims about the push-stream transport -/

/-- Claim C4, counterexample: a stream opened with `lastId = 5` over a
store whose only row has id 7 delivers that row on the first tick
(raising `lastDeliveredId` to 7) and then delivers it again on the
second tick although no record strictly newer than 7 exists. -/
theorem sseC4_counterexample :
    lastDeliveredId 5 (sseTick (some 5) ⟨8, [⟨7, "42", 0⟩]⟩ ⟨[]⟩) = 7 ∧
    sseTick (some 5) ⟨8, [⟨7, "42", 0⟩]⟩
        (sseTick (some 5) ⟨8, [⟨7, "42", 0⟩]⟩ ⟨[]⟩) =
      ⟨[⟨7, "42", 0⟩, ⟨7, "42", 0⟩]⟩ ∧
    ∀ x ∈ (⟨8, [⟨7, "42", 0⟩]⟩ : Store).rows, ¬ (7 < x.id) := by
  decide

/-- Claim C4, amended: every open stream polls on a fixed 2000 ms
interval, and a tick emits nothing exactly when the store holds no
record with id strictly greater than the caller-supplied initial
`lastId`; when the query does return a record, the tick emits it, it is
strictly newer than the initial `lastId` and is the highest such row —
but the comparison is always against the fixed initial parameter, never
against the updated last-delivered id, so an already-delivered record
is re-emitted on every later tick. -/
theorem sseC4_amended (i : Nat) (st : Store) (s : SSEStreamState) :
    ssePollIntervalMs = 2000 ∧
    (sseTick (some i) st s = s ↔ ∀ x ∈ st.rows, x.id ≤ i) ∧
    (∀ r : ScanRecord, ssePollQuery (some i) st = some r →
      sseTick (some i) st s = ⟨s.sent ++ [r]⟩ ∧ i < r.id ∧
        ∀ x ∈ st.rows, i < x.id → x.id ≤ r.id) := by
  refine ⟨rfl, ?_, ?_⟩
  · constructor
    · intro h
      cases hq : ssePollQuery (some i) st with
      | none =>
        have : st.since i = none := hq
        exact (since_none_iff st i).mp this
      | some r =>
        exfalso
        have : sseTick (some i) st s = ⟨s.sent ++ [r]⟩ := by
          simp [sseTick, hq]
        rw [this] at h
        have hlen := congrArg (fun z => z.sent.length) h
        simp at hlen
    · intro h
      have hq : st.since i = none := (since_none_iff st i).mpr h
      simp [sseTick, ssePollQuery, hq]
  · intro r hq
    have hsince : st.since i = some r := hq
    refine ⟨by simp [sseTick, hq], since_some_gt hsince, (since_some_max hsince).2⟩

/-- Claim C4 witness: with initial `lastId = 5` and a store holding the
single row with id 6, the tick emits that row, which is newer than 5
and maximal. -/
theorem sseC4_witness :
    (ssePollQuery (some 5) ⟨7, [⟨6, "x", 0⟩]⟩ = some ⟨6, "x", 0⟩) ∧
    (sseTick (some 5) ⟨7, [⟨6, "x", 0⟩]⟩ ⟨[]⟩ = ⟨[⟨6, "x", 0⟩]⟩ ∧
      5 < (⟨6, "x", 0⟩ : ScanRecord).id ∧
      ∀ x ∈ (⟨7, [⟨6, "x", 0⟩]⟩ : Store).rows,
        5 < x.id → x.id ≤ (⟨6, "x", 0⟩ : ScanRecord).id) :=
  ⟨by decide,
    (sseC4_amended 5 ⟨7, [⟨6, "x", 0⟩]⟩ ⟨[]⟩).2.2 ⟨6, "x", 0⟩ (by decide)⟩

/-! ### Claims about the Sync Receiver -/

/-- Along a trace of transport failures and timer firings only, the
attempt counter never exceeds the cap and grows by exactly the number
of reconnect timers scheduled. -/
theorem sseAutoRun (es : List SSEEvent) :
    ∀ s : SSEClientState, autoOnly es = true →
      s.reconnectAttempts ≤ maxReconnectAttempts →
      (es.foldl sseStep s).reconnectAttempts ≤ maxReconnectAttempts ∧
      (es.foldl sseStep s).reconnectAttempts =
        s.reconnectAttempts + countScheduled s es := by
  induction es with
  | nil =>
    intro s _ hb
    exact ⟨by simpa using hb, by simp [countScheduled]⟩
  | cons e tl ih =>
    intro s ha hb
    simp only [autoOnly, List.all_cons, Bool.and_eq_true, Bool.or_eq_true,
      decide_eq_true_eq] at ha
    obtain ⟨he, htl⟩ := ha
    have htl' : autoOnly tl = true := by
      simp only [autoOnly]
      exact htl
    rcases he with he | he
    · subst he
      simp only [List.foldl_cons, countScheduled, schedulesOnError]
      by_cases hc : s.reconnectAttempts < maxReconnectAttempts
      · have hstep : sseStep s .onError =
            { s with status := SSEStatus.error,
                     reconnectAttempts := s.reconnectAttempts + 1,
                     timerPending := true } := by
          simp [sseStep, hc]
        rw [hstep]
        have := ih { s with status := SSEStatus.error,
                            reconnectAttempts := s.reconnectAttempts + 1,
                            timerPending := true } htl' (by simpa using hc)
        simp only [hc, if_pos] at *
        refine ⟨this.1, ?_⟩
        rw [this.2]
        omega
      · have hstep : sseStep s .onError = { s with status := SSEStatus.error } := by
          simp [sseStep, hc]
        rw [hstep]
        have := ih { s with status := SSEStatus.error } htl' (by simpa using hb)
        simp only [hc, if_neg, if_false] at *
        refine ⟨this.1, ?_⟩
        rw [this.2]
        omega
    · subst he
      simp only [List.foldl_cons, countScheduled, schedulesOnError]
      by_cases hp : s.timerPending
      · have hstep : sseStep s .timerFire =
            connectStep { s with timerPending := false } := by
          simp [sseStep, hp]
        rw [hstep]
        have := ih (connectStep { s with timerPending := false }) htl'
          (by simpa [connectStep] using hb)
        simpa [connectStep] using this
      · have hstep : sseStep s .timerFire = s := by
          simp [sseStep, hp]
        rw [hstep]
        simpa using ih s htl' hb

/-- Claim C5, counterexample: after six consecutive transport failures
(the initial connect and its five scheduled retries all error) the hook
settles with status `error` and no pending timer — it never surfaces
the `disconnected` status, and no explicit manual-retry-required flag
exists; only the attempt counter at its cap marks the condition. -/
theorem sseC5_counterexample :
    (sseRunClient sixFailTrace).status = SSEStatus.error ∧
    (sseRunClient sixFailTrace).status ≠ SSEStatus.disconnected ∧
    (sseRunClient sixFailTrace).timerPending = false ∧
    (sseRunClient sixFailTrace).reconnectAttempts = maxReconnectAttempts := by
  decide

/-- Claim C5, amended: along any run of automatic events (failures and
timer firings) at most five reconnect timers are ever scheduled; once
the counter has reached the cap a further failure changes nothing but
the status (it stays `error`, with no timer and no scheduling);
the manual `reconnect()` action resets the counter to zero, as does a
successful `onopen`; the terminal condition is the `error` status with
the counter at the cap, not a distinct `disconnected` state. -/
theorem sseC5_amended :
    (∀ es : List SSEEvent, autoOnly es = true →
      countScheduled sseInit es ≤ maxReconnectAttempts) ∧
    (∀ s : SSEClientState, ¬ s.reconnectAttempts < maxReconnectAttempts →
      sseStep s .onError = { s with status := SSEStatus.error }) ∧
    (∀ s : SSEClientState, (sseStep s .manualReconnect).reconnectAttempts = 0) ∧
    (∀ s : SSEClientState, (sseStep s .onOpen).reconnectAttempts = 0) ∧
    ((sseRunClient sixFailTrace).status = SSEStatus.error ∧
      (sseRunClient sixFailTrace).timerPending = false) := by
  refine ⟨?_, ?_, ?_, ?_, by decide⟩
  · intro es ha
    have h := sseAutoRun es sseInit ha (by decide)
    omega
  · intro s hs
    simp [sseStep, hs]
  · intro s
    simp [sseStep, connectStep]
  · intro s
    simp [sseStep]

/-- Claim C5 witness: one failure schedules one retry (within the cap),
and an `onerror` at the cap leaves the state unchanged except for the
`error` status. -/
theorem sseC5_witness :
    (autoOnly [SSEEvent.onError] = true ∧
      countScheduled sseInit [SSEEvent.onError] ≤ maxReconnectAttempts) ∧
    (¬ (⟨SSEStatus.error, 5, false, true⟩ : SSEClientState).reconnectAttempts <
        maxReconnectAttempts ∧
      sseStep ⟨SSEStatus.error, 5, false, true⟩ SSEEvent.onError =
        ⟨SSEStatus.error, 5, false, true⟩) :=
  ⟨⟨by decide, sseC5_amended.1 [SSEEvent.onError] (by decide)⟩,
    ⟨by decide, sseC5_amended.2.1 ⟨SSEStatus.error, 5, false, true⟩ (by decide)⟩⟩

/-! ### Claims about the decode loop and camera lifecycle -/

/-- Claim C6, counterexample: the whitespace string returned by a
decode is non-empty, yet `tick` does not stop — it schedules the next
frame, because the code tests `code.data.trim() !== ""`, not
non-emptiness. -/
theorem tickC6_counterexample :
    tick ⟨true, true, true, some " "⟩ = ⟨1, false, none⟩ ∧
    (" " : String) ≠ "" := by
  decide

/-- Claim C6, amended: on an active loop with all refs present and a
ready frame, a decode whose string is non-empty after trimming stops
immediately — `stopScan` runs and no further frame is requested before
anything else — while a decode with no result (or a whitespace-only
result) requests exactly one next frame and does not stop. -/
theorem tickC6_amended (inp : TickInput)
    (hl : inp.loopActive = true) (hr : inp.refsPresent = true)
    (hv : inp.videoReady = true) :
    (∀ d : String, inp.decodeResult = some d → jsTrim d ≠ "" →
      tick inp = ⟨0, true, some d⟩) ∧
    (inp.decodeResult = none → tick inp = ⟨1, false, none⟩) ∧
    (∀ d : String, inp.decodeResult = some d → jsTrim d = "" →
      tick inp = ⟨1, false, none⟩) := by
  obtain ⟨l, r, v, dr⟩ := inp
  simp only at hl hr hv
  subst hl; subst hr; subst hv
  refine ⟨?_, ?_, ?_⟩
  · intro d hd htrim
    simp only at hd
    subst hd
    simp [tick, htrim]
  · intro hd
    simp only at hd
    subst hd
    simp [tick]
  · intro d hd htrim
    simp only at hd
    subst hd
    simp [tick, htrim]

/-- Claim C6 witness: a decode yielding `"hello42"` stops the loop with
no further frame; the input's flags are all set. -/
theorem tickC6_witness :
    ((⟨true, true, true, some "hello42"⟩ : TickInput).loopActive = true ∧
      jsTrim "hello42" ≠ "") ∧
    tick ⟨true, true, true, some "hello42"⟩ = ⟨0, true, some "hello42"⟩ :=
  ⟨⟨rfl, by decide⟩,
    (tickC6_amended ⟨true, true, true, some "hello42"⟩ rfl rfl rfl).1
      "hello42" rfl (by decide)⟩

/-- Claim C7: on the trace where `stop()` runs while the first
`start()`'s `getUserMedia` is still in flight, the resolved acquisition
is stored and the loop re-enabled after the stop already completed
(`isScanning` is false yet the camera is held and the loop runs), and
after a second successful `start()` camera 0 was acquired but never
released — the track-stop never runs for it. -/
theorem qrScannerC7_leak :
    ((leakTrace.take 5).foldl scannerStep scannerInit).isScanning = false ∧
    ((leakTrace.take 5).foldl scannerStep scannerInit).stream = some 0 ∧
    ((leakTrace.take 5).foldl scannerStep scannerInit).loopActive = true ∧
    (runScanner leakTrace).acquired = [0, 1] ∧
    (runScanner leakTrace).released = [] := by
  decide

/-! ### Claims about the broadcast hub wire format -/

/-- Claim C9, counterexample: the WebSocket hub broadcasts type tag
`NEW_SCAN`, and the push stream tags new records `new_scan` — neither
is in the claimed envelope set `{connected, new-scan, heartbeat,
error}` — and the stream's initial `connected` message carries no
top-level timestamp. -/
theorem hubC9_counterexample :
    wsTypeString (notifyNewScan "42" 0 "uuid").type ∉ specEnvelopeTypes ∧
    sseTypeString (SSEServerMsg.newScanMsg 1 "42" 0 0) ∉ specEnvelopeTypes ∧
    sseTypeString (SSEServerMsg.connectedMsg "ack") = "connected" ∧
    sseHasTopTimestamp (SSEServerMsg.connectedMsg "ack") = false := by
  decide

/-- Claim C9, amended: push-stream messages use the type tags
`connected`, `new_scan`, `heartbeat`, `error`, and only the heartbeat
carries a top-level timestamp (a `new_scan` nests its timestamp and the
record fields `id`, `content`, `scannedAt` inside `data`); the
persistent channel's messages use the tags `NEW_SCAN`,
`GENERATE_UUID`, `HEARTBEAT` and always carry `type`, optional `data`,
`timestamp` and a message id. -/
theorem hubC9_amended :
    (∀ m : SSEServerMsg,
      sseTypeString m ∈ ["connected", "new_scan", "heartbeat", "error"]) ∧
    (∀ m : SSEServerMsg,
      sseHasTopTimestamp m = true ↔ ∃ t : Int, m = SSEServerMsg.heartbeatMsg t) ∧
    (∀ m : QRCodeMessage,
      wsTypeString m.type ∈ ["NEW_SCAN", "GENERATE_UUID", "HEARTBEAT"]) ∧
    (∀ (d : String) (now : Int) (uuid : String),
      (notifyNewScan d now uuid).data = some d ∧
      (notifyNewScan d now uuid).timestamp = now ∧
      (wsHeartbeat now uuid).timestamp = now) := by
  refine ⟨?_, ?_, ?_, ?_⟩
  · intro m
    cases m <;> simp [sseTypeString]
  · intro m
    cases m <;> simp [sseHasTopTimestamp]
  · intro m
    obtain ⟨t, d, ts, i⟩ := m
    cases t <;> simp [wsTypeString]
  · intro d now uuid
    exact ⟨rfl, rfl, rfl⟩
